import Mathlib

/-!
Verification of the cargo-rustc-cfg library (src/lib.rs): a shallow
embedding of the `CargoTarget` and `CargoRustcPrintCfg` command builder,
the `cargo rustc -- --print cfg` output parser that produces the `Cfg`
and `Target` values, and the `Error` taxonomy.  Rust strings are
modelled as lists of characters; the external process is modelled by an
injected captured `Output` (status, stdout, stderr), with stdout and
stderr assumed to be valid UTF-8 text.
-/

namespace CargoRustcCfg

/-- A Rust string / string slice, modelled as its list of characters. -/
abbrev Str := List Char

/-- The command line name of the Cargo application (`CARGO` in src/lib.rs). -/
def CARGO : Str := "cargo".toList

/-- The command line name of the Rust compiler subcommand (`RUSTC` in src/lib.rs). -/
def RUSTC : Str := "rustc".toList

/-- Rust `str::split(sep)` with a character separator: splits at every
occurrence of `sep`; `n` separators in the input yield `n + 1` (possibly
empty) parts. -/
def splitOnChar (sep : Char) : Str → List Str
  | [] => [[]]
  | c :: cs =>
    if c = sep then [] :: splitOnChar sep cs
    else
      match splitOnChar sep cs with
      | [] => [[c]]
      | p :: ps => (c :: p) :: ps

/-- The first two items of the `entry.split('=')` iterator, as consumed by
`(parts.next(), parts.next())` in `CargoRustcPrintCfg::execute`
(src/lib.rs lines 655-657): `none` when the line has no `=`, otherwise the
text before the first `=` and the text between the first and any second
`=` (any later parts of the iterator are never consumed). -/
def splitKV (line : Str) : Option (Str × Str) :=
  match splitOnChar '=' line with
  | key :: value :: _ => some (key, value)
  | _ => none

/-- Rust `value.trim_matches('"')` (src/lib.rs lines 659-697): removes all
leading and all trailing double-quote characters. -/
def trimMatchesQuote (s : Str) : Str :=
  ((s.dropWhile (· == '"')).reverse.dropWhile (· == '"')).reverse

/-- The `if v.is_empty() { None } else { Some(v) }` pattern used for the
`target_env`, `target_family`, and `target_vendor` values
(src/lib.rs lines 661-695). -/
def emptyToNone (v : Str) : Option Str :=
  if v = [] then none else some v

/-- The `target_arch` key (src/lib.rs line 659). -/
def archKey : Str := "target_arch".toList

/-- The `target_endian` key (src/lib.rs line 660). -/
def endianKey : Str := "target_endian".toList

/-- The `target_env` key (src/lib.rs line 661). -/
def envKey : Str := "target_env".toList

/-- The `target_family` key (src/lib.rs line 671). -/
def familyKey : Str := "target_family".toList

/-- The `target_feature` key (src/lib.rs line 681). -/
def featureKey : Str := "target_feature".toList

/-- The `target_os` key (src/lib.rs line 682). -/
def osKey : Str := "target_os".toList

/-- The `target_pointer_width` key (src/lib.rs line 683). -/
def pwKey : Str := "target_pointer_width".toList

/-- The `target_vendor` key (src/lib.rs line 686). -/
def vendorKey : Str := "target_vendor".toList

/-- The accumulator of the parsing loop in `CargoRustcPrintCfg::execute`
(src/lib.rs lines 644-652): the mutable locals `extras`, `arch`,
`endian`, `env`, `family`, `features`, `os`, `pointer_width`, `vendor`. -/
structure ParseState where
  extras : List Str
  arch : Option Str
  endian : Option Str
  env : Option Str
  family : Option Str
  features : List Str
  os : Option Str
  pointer_width : Option Str
  vendor : Option Str
deriving DecidableEq

/-- The initial values of the parsing loop accumulator
(src/lib.rs lines 644-652). -/
def initState : ParseState :=
  { extras := [], arch := none, endian := none, env := none, family := none,
    features := [], os := none, pointer_width := none, vendor := none }

/-- One iteration of the `for entry in specification.lines()` loop
(src/lib.rs lines 654-703). -/
def processLine (st : ParseState) (entry : Str) : ParseState :=
  match splitKV entry with
  | some (key, value) =>
    if key = archKey then { st with arch := some (trimMatchesQuote value) }
    else if key = endianKey then { st with endian := some (trimMatchesQuote value) }
    else if key = envKey then { st with env := emptyToNone (trimMatchesQuote value) }
    else if key = familyKey then { st with family := emptyToNone (trimMatchesQuote value) }
    else if key = featureKey then
      { st with features := st.features ++ [trimMatchesQuote value] }
    else if key = osKey then { st with os := some (trimMatchesQuote value) }
    else if key = pwKey then { st with pointer_width := some (trimMatchesQuote value) }
    else if key = vendorKey then { st with vendor := emptyToNone (trimMatchesQuote value) }
    else { st with extras := st.extras ++ [entry] }
  | none => { st with extras := st.extras ++ [entry] }

/-- The whole parsing loop of `CargoRustcPrintCfg::execute` over a list of
stdout lines (src/lib.rs lines 654-703). -/
def parseState (ls : List Str) : ParseState :=
  ls.foldl processLine initState

/-- The `Target` struct (src/lib.rs lines 889-898). -/
structure Target where
  arch : Str
  endian : Str
  env : Option Str
  family : Option Str
  features : List Str
  os : Str
  pointer_width : Str
  vendor : Option Str
deriving DecidableEq

/-- The `Cfg` struct (src/lib.rs lines 737-740). -/
structure Cfg where
  extras : List Str
  target : Target
deriving DecidableEq

/-- A captured `std::process::Output`: exit status (0 means success),
stdout text, and stderr text. -/
structure Output where
  status : Nat
  stdout : Str
  stderr : Str
deriving DecidableEq

/-- The `Error` enum (src/lib.rs lines 1309-1321).  The `FromUtf8`, `Generic`
and `Io` payloads are modelled by their message text; `MissingOutput`
carries the name of the missing key. -/
inductive Error where
  | Command : Output → Error
  | FromUtf8 : Str → Error
  | Generic : Str → Error
  | Io : Str → Error
  | MissingOutput : Str → Error
deriving DecidableEq

/-- The construction of the `Cfg` value from the final loop state
(src/lib.rs lines 705-718): the `ok_or_else(.. MissingOutput ..)?`
chain evaluates `arch`, `endian`, `os`, `pointer_width` in that order. -/
def buildCfg (ls : List Str) : Except Error Cfg :=
  match (parseState ls).arch with
  | none => Except.error (Error.MissingOutput archKey)
  | some arch =>
    match (parseState ls).endian with
    | none => Except.error (Error.MissingOutput endianKey)
    | some endian =>
      match (parseState ls).os with
      | none => Except.error (Error.MissingOutput osKey)
      | some os =>
        match (parseState ls).pointer_width with
        | none => Except.error (Error.MissingOutput pwKey)
        | some pointer_width =>
          Except.ok
            { extras := (parseState ls).extras,
              target :=
                { arch := arch, endian := endian, env := (parseState ls).env,
                  family := (parseState ls).family,
                  features := (parseState ls).features,
                  os := os, pointer_width := pointer_width,
                  vendor := (parseState ls).vendor } }

/-- Removal of one trailing carriage return, as done per line by Rust
`str::lines()`. -/
def stripCr (l : Str) : Str :=
  match l.reverse with
  | [] => l
  | c :: rest => if c = '\r' then rest.reverse else l

/-- Rust `str::lines()` used on the captured stdout (src/lib.rs line 654):
split at every newline, drop the empty part produced by a trailing
newline, and strip one trailing carriage return from each line. -/
def rustLines (s : Str) : List Str :=
  let parts := splitOnChar '\n' s
  let kept := if parts.getLast? = some ([] : Str) then parts.dropLast else parts
  kept.map stripCr

/-- The `{:?}` debug rendering of a captured `Output` used by the `Display`
implementation for `Error::Command`.  The exact derived format is
immaterial to every property below (only the text appended after it
matters); it is modelled as a simple field listing. -/
def debugOutput (o : Output) : Str :=
  "Output \x7b status: ".toList ++ (Nat.repr o.status).toList
    ++ ", stdout: ".toList ++ o.stdout
    ++ ", stderr: ".toList ++ o.stderr
    ++ " \x7d".toList

/-- The `Display` implementation for `Error` (src/lib.rs lines 1323-1338).
The `Command` arm is `write!(f, "{:?}: {}", output, lossy(stderr))`. -/
def displayError : Error → Str
  | Error.Command output => debugOutput output ++ ": ".toList ++ output.stderr
  | Error.FromUtf8 err => err
  | Error.Generic msg => msg
  | Error.Io err => err
  | Error.MissingOutput key =>
      "The \x27".toList ++ key ++ "\x27 is missing from the output".toList

/-- The tail of `CargoRustcPrintCfg::execute` after the process has been
run and its output captured (src/lib.rs lines 640-719): a non-success
status yields `Error::Command` carrying the whole output; otherwise the
stdout text is parsed line by line and the `Cfg` is constructed. -/
def executeOutput (output : Output) : Except Error Cfg :=
  if output.status ≠ 0 then Except.error (Error.Command output)
  else buildCfg (rustLines output.stdout)

/-- The `CargoTarget` enum (src/lib.rs lines 316-331). -/
inductive CargoTarget where
  | Benchmark : Str → CargoTarget
  | Binary : Str → CargoTarget
  | Example : Str → CargoTarget
  | Library : CargoTarget
  | Test : Str → CargoTarget
deriving DecidableEq

/-- `CargoTarget::to_args` (src/lib.rs lines 335-343). -/
def CargoTarget.to_args : CargoTarget → List Str
  | CargoTarget.Benchmark name => ["--bench".toList, name]
  | CargoTarget.Binary name => ["--bin".toList, name]
  | CargoTarget.Example name => ["--example".toList, name]
  | CargoTarget.Library => ["--lib".toList]
  | CargoTarget.Test name => ["--test".toList, name]

/-- The `CargoRustcPrintCfg` builder (src/lib.rs lines 390-396). -/
structure CargoRustcPrintCfg where
  cargo_args : Option (List Str)
  cargo_target : CargoTarget
  cargo_toolchain : Option Str
  rustc_args : Option (List Str)
  rustc_target : Option Str
deriving DecidableEq

/-- `Default for CargoRustcPrintCfg` (src/lib.rs lines 722-732). -/
def CargoRustcPrintCfg.default : CargoRustcPrintCfg :=
  { cargo_args := none, cargo_target := CargoTarget.Library,
    cargo_toolchain := none, rustc_args := none, rustc_target := none }

/-- The argument vector assembled by `CargoRustcPrintCfg::execute` before
the process is spawned (src/lib.rs lines 613-639), beginning with the
program name.  The order is exactly the order of the `cmd.arg`/`cmd.args`
calls: `+toolchain`, `rustc`, the cargo args, `--target <triple>`, `--`,
the rustc args, the Cargo target selector, `--print cfg`. -/
def commandArgs (self : CargoRustcPrintCfg) (program : Str) : List Str :=
  [program]
    ++ (match self.cargo_toolchain with
        | some t => [('+' :: t)]
        | none => [])
    ++ [RUSTC]
    ++ (match self.cargo_args with
        | some a => a
        | none => [])
    ++ (match self.rustc_target with
        | some t => ["--target".toList, t]
        | none => [])
    ++ ["--".toList]
    ++ (match self.rustc_args with
        | some a => a
        | none => [])
    ++ self.cargo_target.to_args
    ++ ["--print".toList, "cfg".toList]

/-- `CargoRustcPrintCfg::execute` with the process-spawning primitive
injected as a function from the argument vector to the captured output. -/
def execute (self : CargoRustcPrintCfg) (runner : List Str → Output) :
    Except Error Cfg :=
  executeOutput (runner (commandArgs self CARGO))

/-! ## Specification-side helpers used to state the properties -/

/-- The raw (un-stripped) value that the parsing loop would read from one
line for the key `k`: the second `split('=')` part when the line has key
`k`, and `none` otherwise. -/
def kvValueFor (k : Str) (line : Str) : Option Str :=
  match splitKV line with
  | some (key, value) => if key = k then some value else none
  | none => none

/-- The raw value of the key `k` taken from the last line of the list that
carries that key (later lines override earlier ones). -/
def lastKVValue (k : Str) : List Str → Option Str
  | [] => none
  | l :: ls =>
    match lastKVValue k ls with
    | some v => some v
    | none => kvValueFor k l

/-- Whether some line of the list is a `k=value` line. -/
def hasKV (k : Str) (ls : List Str) : Bool :=
  ls.any fun l => (kvValueFor k l).isSome

/-- Whether a line is a key-value line for one of the eight recognized
`target_*` keys, i.e. is consumed by one of the recognized arms of the
parsing loop rather than pushed onto `extras`. -/
def isRecognized (line : Str) : Bool :=
  match splitKV line with
  | some (key, _) =>
      decide (key = archKey) || decide (key = endianKey) || decide (key = envKey) ||
      decide (key = familyKey) || decide (key = featureKey) || decide (key = osKey) ||
      decide (key = pwKey) || decide (key = vendorKey)
  | none => false

/-- Specification-side reading of an optional field (spec sections 3 and 8):
absent when the corresponding line is missing or its quote-stripped value
is the empty string, otherwise the quote-stripped value. -/
def optionalFieldSpec (k : Str) (ls : List Str) : Option Str :=
  match lastKVValue k ls with
  | none => none
  | some v =>
      if trimMatchesQuote v = [] then none else some (trimMatchesQuote v)

/-! ## Lemmas about splitting and quote stripping -/

lemma splitOnChar_no_sep (sep : Char) (v : Str) (hv : sep ∉ v) :
    splitOnChar sep v = [v] := by
  induction v with
  | nil => rfl
  | cons c cs ih =>
    have hc : ¬(c = sep) := fun h => hv (h ▸ List.mem_cons_self c cs)
    have hcs : sep ∉ cs := fun h => hv (List.mem_cons_of_mem _ h)
    simp [splitOnChar, hc, ih hcs]

lemma splitOnChar_append_sep (sep : Char) (k t : Str) (hk : sep ∉ k) :
    splitOnChar sep (k ++ sep :: t) = k :: splitOnChar sep t := by
  induction k with
  | nil => simp [splitOnChar]
  | cons c cs ih =>
    have hc : ¬(c = sep) := fun h => hk (h ▸ List.mem_cons_self c cs)
    have hcs : sep ∉ cs := fun h => hk (List.mem_cons_of_mem _ h)
    show splitOnChar sep (c :: (cs ++ sep :: t)) = (c :: cs) :: splitOnChar sep t
    rw [splitOnChar, if_neg hc, ih hcs]

lemma dropWhile_quote_eq_self (l : Str) (h : l.head? ≠ some '"') :
    l.dropWhile (· == '"') = l := by
  cases l with
  | nil => rfl
  | cons c cs =>
    have hc : ¬((c == '"') = true) := by
      simp only [List.head?_cons, ne_eq, Option.some.injEq] at h
      simp [h]
    simp [List.dropWhile_cons, hc]

lemma dropWhile_quote_eq_self_of_not_mem (l : Str) (h : '"' ∉ l) :
    l.dropWhile (· == '"') = l := by
  apply dropWhile_quote_eq_self
  cases l with
  | nil => simp
  | cons c cs =>
    have : ¬(c = '"') := fun hc => h (hc ▸ List.mem_cons_self c cs)
    simp [this]

lemma dropWhile_quote_cons_quote (l : Str) :
    ('"' :: l).dropWhile (· == '"') = l.dropWhile (· == '"') := by
  rw [List.dropWhile_cons]
  simp

lemma trimMatchesQuote_of_not_mem (v : Str) (h : '"' ∉ v) :
    trimMatchesQuote v = v := by
  unfold trimMatchesQuote
  rw [dropWhile_quote_eq_self_of_not_mem v h,
    dropWhile_quote_eq_self_of_not_mem _ (by simpa using h), List.reverse_reverse]

lemma trimMatchesQuote_quoted (v : Str) (h : '"' ∉ v) :
    trimMatchesQuote ('"' :: (v ++ ['"'])) = v := by
  unfold trimMatchesQuote
  rw [dropWhile_quote_cons_quote]
  cases v with
  | nil => rfl
  | cons c cs =>
    have hc : ¬(c = '"') := fun hc => h (hc ▸ List.mem_cons_self c cs)
    have h1 : (c :: (cs ++ ['"'])).dropWhile (· == '"') = c :: (cs ++ ['"']) :=
      dropWhile_quote_eq_self _ (by simp [hc])
    rw [List.cons_append, h1]
    have h2 : (c :: (cs ++ ['"'])).reverse = '"' :: (c :: cs).reverse := by
      rw [← List.cons_append]
      simp
    rw [h2, dropWhile_quote_cons_quote,
      dropWhile_quote_eq_self_of_not_mem _
        (by simp only [List.mem_reverse]; exact h),
      List.reverse_reverse]

/-! ## The eight recognized keys are pairwise distinct -/

@[simp] lemma ne_archKey_endianKey : archKey ≠ endianKey := by decide
@[simp] lemma ne_archKey_envKey : archKey ≠ envKey := by decide
@[simp] lemma ne_archKey_familyKey : archKey ≠ familyKey := by decide
@[simp] lemma ne_archKey_featureKey : archKey ≠ featureKey := by decide
@[simp] lemma ne_archKey_osKey : archKey ≠ osKey := by decide
@[simp] lemma ne_archKey_pwKey : archKey ≠ pwKey := by decide
@[simp] lemma ne_archKey_vendorKey : archKey ≠ vendorKey := by decide
@[simp] lemma ne_endianKey_archKey : endianKey ≠ archKey := by decide
@[simp] lemma ne_endianKey_envKey : endianKey ≠ envKey := by decide
@[simp] lemma ne_endianKey_familyKey : endianKey ≠ familyKey := by decide
@[simp] lemma ne_endianKey_featureKey : endianKey ≠ featureKey := by decide
@[simp] lemma ne_endianKey_osKey : endianKey ≠ osKey := by decide
@[simp] lemma ne_endianKey_pwKey : endianKey ≠ pwKey := by decide
@[simp] lemma ne_endianKey_vendorKey : endianKey ≠ vendorKey := by decide
@[simp] lemma ne_envKey_archKey : envKey ≠ archKey := by decide
@[simp] lemma ne_envKey_endianKey : envKey ≠ endianKey := by decide
@[simp] lemma ne_envKey_familyKey : envKey ≠ familyKey := by decide
@[simp] lemma ne_envKey_featureKey : envKey ≠ featureKey := by decide
@[simp] lemma ne_envKey_osKey : envKey ≠ osKey := by decide
@[simp] lemma ne_envKey_pwKey : envKey ≠ pwKey := by decide
@[simp] lemma ne_envKey_vendorKey : envKey ≠ vendorKey := by decide
@[simp] lemma ne_familyKey_archKey : familyKey ≠ archKey := by decide
@[simp] lemma ne_familyKey_endianKey : familyKey ≠ endianKey := by decide
@[simp] lemma ne_familyKey_envKey : familyKey ≠ envKey := by decide
@[simp] lemma ne_familyKey_featureKey : familyKey ≠ featureKey := by decide
@[simp] lemma ne_familyKey_osKey : familyKey ≠ osKey := by decide
@[simp] lemma ne_familyKey_pwKey : familyKey ≠ pwKey := by decide
@[simp] lemma ne_familyKey_vendorKey : familyKey ≠ vendorKey := by decide
@[simp] lemma ne_featureKey_archKey : featureKey ≠ archKey := by decide
@[simp] lemma ne_featureKey_endianKey : featureKey ≠ endianKey := by decide
@[simp] lemma ne_featureKey_envKey : featureKey ≠ envKey := by decide
@[simp] lemma ne_featureKey_familyKey : featureKey ≠ familyKey := by decide
@[simp] lemma ne_featureKey_osKey : featureKey ≠ osKey := by decide
@[simp] lemma ne_featureKey_pwKey : featureKey ≠ pwKey := by decide
@[simp] lemma ne_featureKey_vendorKey : featureKey ≠ vendorKey := by decide
@[simp] lemma ne_osKey_archKey : osKey ≠ archKey := by decide
@[simp] lemma ne_osKey_endianKey : osKey ≠ endianKey := by decide
@[simp] lemma ne_osKey_envKey : osKey ≠ envKey := by decide
@[simp] lemma ne_osKey_familyKey : osKey ≠ familyKey := by decide
@[simp] lemma ne_osKey_featureKey : osKey ≠ featureKey := by decide
@[simp] lemma ne_osKey_pwKey : osKey ≠ pwKey := by decide
@[simp] lemma ne_osKey_vendorKey : osKey ≠ vendorKey := by decide
@[simp] lemma ne_pwKey_archKey : pwKey ≠ archKey := by decide
@[simp] lemma ne_pwKey_endianKey : pwKey ≠ endianKey := by decide
@[simp] lemma ne_pwKey_envKey : pwKey ≠ envKey := by decide
@[simp] lemma ne_pwKey_familyKey : pwKey ≠ familyKey := by decide
@[simp] lemma ne_pwKey_featureKey : pwKey ≠ featureKey := by decide
@[simp] lemma ne_pwKey_osKey : pwKey ≠ osKey := by decide
@[simp] lemma ne_pwKey_vendorKey : pwKey ≠ vendorKey := by decide
@[simp] lemma ne_vendorKey_archKey : vendorKey ≠ archKey := by decide
@[simp] lemma ne_vendorKey_endianKey : vendorKey ≠ endianKey := by decide
@[simp] lemma ne_vendorKey_envKey : vendorKey ≠ envKey := by decide
@[simp] lemma ne_vendorKey_familyKey : vendorKey ≠ familyKey := by decide
@[simp] lemma ne_vendorKey_featureKey : vendorKey ≠ featureKey := by decide
@[simp] lemma ne_vendorKey_osKey : vendorKey ≠ osKey := by decide
@[simp] lemma ne_vendorKey_pwKey : vendorKey ≠ pwKey := by decide

/-! ## Per-line behaviour of the parsing loop -/

lemma processLine_arch (st : ParseState) (l : Str) :
    (processLine st l).arch =
      match kvValueFor archKey l with
      | some v => some (trimMatchesQuote v)
      | none => st.arch := by
  unfold processLine kvValueFor
  cases h : splitKV l with
  | none => rfl
  | some kv =>
    obtain ⟨key, value⟩ := kv
    dsimp only
    split_ifs with h1 h2 h3 h4 h5 h6 h7 h8 <;> simp_all

lemma processLine_endian (st : ParseState) (l : Str) :
    (processLine st l).endian =
      match kvValueFor endianKey l with
      | some v => some (trimMatchesQuote v)
      | none => st.endian := by
  unfold processLine kvValueFor
  cases h : splitKV l with
  | none => rfl
  | some kv =>
    obtain ⟨key, value⟩ := kv
    dsimp only
    split_ifs with h1 h2 h3 h4 h5 h6 h7 h8 <;> simp_all

lemma processLine_os (st : ParseState) (l : Str) :
    (processLine st l).os =
      match kvValueFor osKey l with
      | some v => some (trimMatchesQuote v)
      | none => st.os := by
  unfold processLine kvValueFor
  cases h : splitKV l with
  | none => rfl
  | some kv =>
    obtain ⟨key, value⟩ := kv
    dsimp only
    split_ifs with h1 h2 h3 h4 h5 h6 h7 h8 <;> simp_all

lemma processLine_pw (st : ParseState) (l : Str) :
    (processLine st l).pointer_width =
      match kvValueFor pwKey l with
      | some v => some (trimMatchesQuote v)
      | none => st.pointer_width := by
  unfold processLine kvValueFor
  cases h : splitKV l with
  | none => rfl
  | some kv =>
    obtain ⟨key, value⟩ := kv
    dsimp only
    split_ifs with h1 h2 h3 h4 h5 h6 h7 h8 <;> simp_all

lemma processLine_env (st : ParseState) (l : Str) :
    (processLine st l).env =
      match kvValueFor envKey l with
      | some v => emptyToNone (trimMatchesQuote v)
      | none => st.env := by
  unfold processLine kvValueFor
  cases h : splitKV l with
  | none => rfl
  | some kv =>
    obtain ⟨key, value⟩ := kv
    dsimp only
    split_ifs with h1 h2 h3 h4 h5 h6 h7 h8 <;> simp_all

lemma processLine_family (st : ParseState) (l : Str) :
    (processLine st l).family =
      match kvValueFor familyKey l with
      | some v => emptyToNone (trimMatchesQuote v)
      | none => st.family := by
  unfold processLine kvValueFor
  cases h : splitKV l with
  | none => rfl
  | some kv =>
    obtain ⟨key, value⟩ := kv
    dsimp only
    split_ifs with h1 h2 h3 h4 h5 h6 h7 h8 <;> simp_all

lemma processLine_vendor (st : ParseState) (l : Str) :
    (processLine st l).vendor =
      match kvValueFor vendorKey l with
      | some v => emptyToNone (trimMatchesQuote v)
      | none => st.vendor := by
  unfold processLine kvValueFor
  cases h : splitKV l with
  | none => rfl
  | some kv =>
    obtain ⟨key, value⟩ := kv
    dsimp only
    split_ifs with h1 h2 h3 h4 h5 h6 h7 h8 <;> simp_all

lemma processLine_features (st : ParseState) (l : Str) :
    (processLine st l).features =
      st.features ++
        (match kvValueFor featureKey l with
         | some v => [trimMatchesQuote v]
         | none => []) := by
  unfold processLine kvValueFor
  cases h : splitKV l with
  | none => simp
  | some kv =>
    obtain ⟨key, value⟩ := kv
    dsimp only
    split_ifs with h1 h2 h3 h4 h5 h6 h7 h8 <;> simp_all

lemma processLine_extras (st : ParseState) (l : Str) :
    (processLine st l).extras =
      st.extras ++ (if isRecognized l then [] else [l]) := by
  unfold processLine isRecognized
  cases h : splitKV l with
  | none => simp
  | some kv =>
    obtain ⟨key, value⟩ := kv
    dsimp only
    split_ifs with h1 h2 h3 h4 h5 h6 h7 h8 <;> simp_all

/-! ## The parsing loop as a whole -/

lemma foldl_arch (ls : List Str) (st : ParseState) :
    (ls.foldl processLine st).arch =
      match lastKVValue archKey ls with
      | some v => some (trimMatchesQuote v)
      | none => st.arch := by
  induction ls generalizing st with
  | nil => rfl
  | cons l ls ih =>
    rw [List.foldl_cons, ih, processLine_arch]
    cases h1 : lastKVValue archKey ls <;>
      cases h2 : kvValueFor archKey l <;>
        simp [lastKVValue, h1, h2]

lemma foldl_endian (ls : List Str) (st : ParseState) :
    (ls.foldl processLine st).endian =
      match lastKVValue endianKey ls with
      | some v => some (trimMatchesQuote v)
      | none => st.endian := by
  induction ls generalizing st with
  | nil => rfl
  | cons l ls ih =>
    rw [List.foldl_cons, ih, processLine_endian]
    cases h1 : lastKVValue endianKey ls <;>
      cases h2 : kvValueFor endianKey l <;>
        simp [lastKVValue, h1, h2]

lemma foldl_os (ls : List Str) (st : ParseState) :
    (ls.foldl processLine st).os =
      match lastKVValue osKey ls with
      | some v => some (trimMatchesQuote v)
      | none => st.os := by
  induction ls generalizing st with
  | nil => rfl
  | cons l ls ih =>
    rw [List.foldl_cons, ih, processLine_os]
    cases h1 : lastKVValue osKey ls <;>
      cases h2 : kvValueFor osKey l <;>
        simp [lastKVValue, h1, h2]

lemma foldl_pointer_width (ls : List Str) (st : ParseState) :
    (ls.foldl processLine st).pointer_width =
      match lastKVValue pwKey ls with
      | some v => some (trimMatchesQuote v)
      | none => st.pointer_width := by
  induction ls generalizing st with
  | nil => rfl
  | cons l ls ih =>
    rw [List.foldl_cons, ih, processLine_pw]
    cases h1 : lastKVValue pwKey ls <;>
      cases h2 : kvValueFor pwKey l <;>
        simp [lastKVValue, h1, h2]

lemma foldl_env (ls : List Str) (st : ParseState) :
    (ls.foldl processLine st).env =
      match lastKVValue envKey ls with
      | some v => emptyToNone (trimMatchesQuote v)
      | none => st.env := by
  induction ls generalizing st with
  | nil => rfl
  | cons l ls ih =>
    rw [List.foldl_cons, ih, processLine_env]
    cases h1 : lastKVValue envKey ls <;>
      cases h2 : kvValueFor envKey l <;>
        simp [lastKVValue, h1, h2]

lemma foldl_family (ls : List Str) (st : ParseState) :
    (ls.foldl processLine st).family =
      match lastKVValue familyKey ls with
      | some v => emptyToNone (trimMatchesQuote v)
      | none => st.family := by
  induction ls generalizing st with
  | nil => rfl
  | cons l ls ih =>
    rw [List.foldl_cons, ih, processLine_family]
    cases h1 : lastKVValue familyKey ls <;>
      cases h2 : kvValueFor familyKey l <;>
        simp [lastKVValue, h1, h2]

lemma foldl_vendor (ls : List Str) (st : ParseState) :
    (ls.foldl processLine st).vendor =
      match lastKVValue vendorKey ls with
      | some v => emptyToNone (trimMatchesQuote v)
      | none => st.vendor := by
  induction ls generalizing st with
  | nil => rfl
  | cons l ls ih =>
    rw [List.foldl_cons, ih, processLine_vendor]
    cases h1 : lastKVValue vendorKey ls <;>
      cases h2 : kvValueFor vendorKey l <;>
        simp [lastKVValue, h1, h2]

lemma foldl_features (ls : List Str) (st : ParseState) :
    (ls.foldl processLine st).features =
      st.features ++
        ls.filterMap (fun l => (kvValueFor featureKey l).map trimMatchesQuote) := by
  induction ls generalizing st with
  | nil => simp
  | cons l ls ih =>
    rw [List.foldl_cons, ih, processLine_features]
    cases h : kvValueFor featureKey l <;> simp [h, List.filterMap_cons]

lemma foldl_extras (ls : List Str) (st : ParseState) :
    (ls.foldl processLine st).extras =
      st.extras ++ ls.filter (fun l => !(isRecognized l)) := by
  induction ls generalizing st with
  | nil => simp
  | cons l ls ih =>
    rw [List.foldl_cons, ih, processLine_extras]
    cases h : isRecognized l <;> simp [h, List.filter_cons]

lemma parseState_arch (ls : List Str) :
    (parseState ls).arch = (lastKVValue archKey ls).map trimMatchesQuote := by
  rw [parseState, foldl_arch]
  cases lastKVValue archKey ls <;> rfl

lemma parseState_endian (ls : List Str) :
    (parseState ls).endian = (lastKVValue endianKey ls).map trimMatchesQuote := by
  rw [parseState, foldl_endian]
  cases lastKVValue endianKey ls <;> rfl

lemma parseState_os (ls : List Str) :
    (parseState ls).os = (lastKVValue osKey ls).map trimMatchesQuote := by
  rw [parseState, foldl_os]
  cases lastKVValue osKey ls <;> rfl

lemma parseState_pw (ls : List Str) :
    (parseState ls).pointer_width = (lastKVValue pwKey ls).map trimMatchesQuote := by
  rw [parseState, foldl_pointer_width]
  cases lastKVValue pwKey ls <;> rfl

lemma parseState_env (ls : List Str) :
    (parseState ls).env =
      (lastKVValue envKey ls).bind (fun v => emptyToNone (trimMatchesQuote v)) := by
  rw [parseState, foldl_env]
  cases lastKVValue envKey ls <;> rfl

lemma parseState_family (ls : List Str) :
    (parseState ls).family =
      (lastKVValue familyKey ls).bind (fun v => emptyToNone (trimMatchesQuote v)) := by
  rw [parseState, foldl_family]
  cases lastKVValue familyKey ls <;> rfl

lemma parseState_vendor (ls : List Str) :
    (parseState ls).vendor =
      (lastKVValue vendorKey ls).bind (fun v => emptyToNone (trimMatchesQuote v)) := by
  rw [parseState, foldl_vendor]
  cases lastKVValue vendorKey ls <;> rfl

lemma parseState_features (ls : List Str) :
    (parseState ls).features =
      ls.filterMap (fun l => (kvValueFor featureKey l).map trimMatchesQuote) := by
  rw [parseState, foldl_features]
  rfl

lemma parseState_extras (ls : List Str) :
    (parseState ls).extras = ls.filter (fun l => !(isRecognized l)) := by
  rw [parseState, foldl_extras]
  rfl

lemma hasKV_true_iff (k : Str) (ls : List Str) :
    hasKV k ls = true ↔ (lastKVValue k ls).isSome = true := by
  induction ls with
  | nil => simp [hasKV, lastKVValue]
  | cons l ls ih =>
    rw [hasKV, List.any_cons]
    rw [hasKV] at ih
    cases h1 : lastKVValue k ls <;> cases h2 : kvValueFor k l <;>
      simp_all [lastKVValue, h1, h2]

lemma hasKV_false_iff (k : Str) (ls : List Str) :
    hasKV k ls = false ↔ lastKVValue k ls = none := by
  rw [← Bool.not_eq_true, hasKV_true_iff]
  cases lastKVValue k ls <;> simp

/-! ## Characterization of the `Cfg` construction -/

lemma buildCfg_missing_arch (ls : List Str)
    (h : (parseState ls).arch = none) :
    buildCfg ls = Except.error (Error.MissingOutput archKey) := by
  unfold buildCfg
  rw [h]

lemma buildCfg_missing_endian (ls : List Str) (a : Str)
    (ha : (parseState ls).arch = some a)
    (h : (parseState ls).endian = none) :
    buildCfg ls = Except.error (Error.MissingOutput endianKey) := by
  unfold buildCfg
  rw [ha, h]

lemma buildCfg_missing_os (ls : List Str) (a e : Str)
    (ha : (parseState ls).arch = some a)
    (he : (parseState ls).endian = some e)
    (h : (parseState ls).os = none) :
    buildCfg ls = Except.error (Error.MissingOutput osKey) := by
  unfold buildCfg
  rw [ha, he, h]

lemma buildCfg_missing_pw (ls : List Str) (a e o : Str)
    (ha : (parseState ls).arch = some a)
    (he : (parseState ls).endian = some e)
    (ho : (parseState ls).os = some o)
    (h : (parseState ls).pointer_width = none) :
    buildCfg ls = Except.error (Error.MissingOutput pwKey) := by
  unfold buildCfg
  rw [ha, he, ho, h]

lemma buildCfg_ok (ls : List Str) (a e o p : Str)
    (ha : (parseState ls).arch = some a)
    (he : (parseState ls).endian = some e)
    (ho : (parseState ls).os = some o)
    (hp : (parseState ls).pointer_width = some p) :
    buildCfg ls =
      Except.ok
        { extras := (parseState ls).extras,
          target :=
            { arch := a, endian := e, env := (parseState ls).env,
              family := (parseState ls).family,
              features := (parseState ls).features,
              os := o, pointer_width := p,
              vendor := (parseState ls).vendor } } := by
  unfold buildCfg
  rw [ha, he, ho, hp]

lemma buildCfg_ok_inv (ls : List Str) (c : Cfg)
    (h : buildCfg ls = Except.ok c) :
    c.extras = (parseState ls).extras ∧
    c.target.features = (parseState ls).features ∧
    c.target.env = (parseState ls).env ∧
    c.target.family = (parseState ls).family ∧
    c.target.vendor = (parseState ls).vendor ∧
    some c.target.arch = (parseState ls).arch ∧
    some c.target.endian = (parseState ls).endian ∧
    some c.target.os = (parseState ls).os ∧
    some c.target.pointer_width = (parseState ls).pointer_width := by
  unfold buildCfg at h
  cases harch : (parseState ls).arch with
  | none => rw [harch] at h; simp at h
  | some a =>
    rw [harch] at h
    cases hend : (parseState ls).endian with
    | none => rw [hend] at h; simp at h
    | some e =>
      rw [hend] at h
      cases hos : (parseState ls).os with
      | none => rw [hos] at h; simp at h
      | some o =>
        rw [hos] at h
        cases hpw : (parseState ls).pointer_width with
        | none => rw [hpw] at h; simp at h
        | some p =>
          rw [hpw] at h
          simp only [Except.ok.injEq] at h
          subst h
          exact ⟨rfl, rfl, rfl, rfl, rfl, rfl, rfl, rfl, rfl⟩

/-! ## The claims -/

/-- Claim C1: for every stdout line containing `=`, the parser takes the
text before the first `=` as the key and yields as the value the text
between the first and any second `=` (anything after a further `=` is
discarded); in particular a quoted value `"v"` with `v` free of quotes
strips to `v`, and an unquoted quote-free value is unchanged. -/
theorem kv_split_at_first_eq (k v rest : Str) (hk : '=' ∉ k) (hv : '=' ∉ v) :
    splitKV (k ++ '=' :: v) = some (k, v) ∧
    splitKV (k ++ '=' :: (v ++ '=' :: rest)) = some (k, v) ∧
    ('"' ∉ v →
      trimMatchesQuote ('"' :: (v ++ ['"'])) = v ∧ trimMatchesQuote v = v) := by
  refine ⟨?_, ?_,
    fun hq => ⟨trimMatchesQuote_quoted v hq, trimMatchesQuote_of_not_mem v hq⟩⟩
  · rw [splitKV, splitOnChar_append_sep _ _ _ hk, splitOnChar_no_sep _ _ hv]
  · rw [splitKV, splitOnChar_append_sep _ _ _ hk, splitOnChar_append_sep _ _ _ hv]

/-- Witness for C1 at the concrete line `target_os=linux` with a second
`=` and trailing junk, and at the quoted value `"linux"`. -/
theorem kv_split_at_first_eq_witness :
    splitKV ("target_os".toList ++ '=' :: "linux".toList) =
      some ("target_os".toList, "linux".toList) ∧
    splitKV ("target_os".toList ++ '=' :: ("linux".toList ++ '=' :: "junk".toList)) =
      some ("target_os".toList, "linux".toList) ∧
    ('"' ∉ "linux".toList →
      trimMatchesQuote ('"' :: ("linux".toList ++ ['"'])) = "linux".toList ∧
      trimMatchesQuote "linux".toList = "linux".toList) :=
  kv_split_at_first_eq "target_os".toList "linux".toList "junk".toList
    (by decide) (by decide)

/-- Claim C2: a parsed output with no `key=value` line for one of the four
mandatory keys fails with `MissingOutput` naming the absent key, the keys
being checked in the source order `target_arch`, `target_endian`,
`target_os`, `target_pointer_width`; when all four are present,
construction succeeds with those fields populated.  (The embedding is a
total function, so no panic is possible.) -/
theorem missing_mandatory_key_reports_missing_output (ls : List Str) :
    (hasKV archKey ls = false →
      buildCfg ls = Except.error (Error.MissingOutput archKey)) ∧
    (hasKV archKey ls = true → hasKV endianKey ls = false →
      buildCfg ls = Except.error (Error.MissingOutput endianKey)) ∧
    (hasKV archKey ls = true → hasKV endianKey ls = true →
      hasKV osKey ls = false →
      buildCfg ls = Except.error (Error.MissingOutput osKey)) ∧
    (hasKV archKey ls = true → hasKV endianKey ls = true →
      hasKV osKey ls = true → hasKV pwKey ls = false →
      buildCfg ls = Except.error (Error.MissingOutput pwKey)) ∧
    (hasKV archKey ls = true → hasKV endianKey ls = true →
      hasKV osKey ls = true → hasKV pwKey ls = true →
      ∃ c, buildCfg ls = Except.ok c ∧
        some c.target.arch = (lastKVValue archKey ls).map trimMatchesQuote ∧
        some c.target.endian = (lastKVValue endianKey ls).map trimMatchesQuote ∧
        some c.target.os = (lastKVValue osKey ls).map trimMatchesQuote ∧
        some c.target.pointer_width = (lastKVValue pwKey ls).map trimMatchesQuote) := by
  refine ⟨?_, ?_, ?_, ?_, ?_⟩
  · intro h
    exact buildCfg_missing_arch ls
      (by rw [parseState_arch, (hasKV_false_iff _ _).mp h]; rfl)
  · intro h1 h2
    obtain ⟨va, hva⟩ := Option.isSome_iff_exists.mp ((hasKV_true_iff _ _).mp h1)
    exact buildCfg_missing_endian ls (trimMatchesQuote va)
      (by rw [parseState_arch, hva]; rfl)
      (by rw [parseState_endian, (hasKV_false_iff _ _).mp h2]; rfl)
  · intro h1 h2 h3
    obtain ⟨va, hva⟩ := Option.isSome_iff_exists.mp ((hasKV_true_iff _ _).mp h1)
    obtain ⟨ve, hve⟩ := Option.isSome_iff_exists.mp ((hasKV_true_iff _ _).mp h2)
    exact buildCfg_missing_os ls (trimMatchesQuote va) (trimMatchesQuote ve)
      (by rw [parseState_arch, hva]; rfl)
      (by rw [parseState_endian, hve]; rfl)
      (by rw [parseState_os, (hasKV_false_iff _ _).mp h3]; rfl)
  · intro h1 h2 h3 h4
    obtain ⟨va, hva⟩ := Option.isSome_iff_exists.mp ((hasKV_true_iff _ _).mp h1)
    obtain ⟨ve, hve⟩ := Option.isSome_iff_exists.mp ((hasKV_true_iff _ _).mp h2)
    obtain ⟨vo, hvo⟩ := Option.isSome_iff_exists.mp ((hasKV_true_iff _ _).mp h3)
    exact buildCfg_missing_pw ls (trimMatchesQuote va) (trimMatchesQuote ve)
      (trimMatchesQuote vo)
      (by rw [parseState_arch, hva]; rfl)
      (by rw [parseState_endian, hve]; rfl)
      (by rw [parseState_os, hvo]; rfl)
      (by rw [parseState_pw, (hasKV_false_iff _ _).mp h4]; rfl)
  · intro h1 h2 h3 h4
    obtain ⟨va, hva⟩ := Option.isSome_iff_exists.mp ((hasKV_true_iff _ _).mp h1)
    obtain ⟨ve, hve⟩ := Option.isSome_iff_exists.mp ((hasKV_true_iff _ _).mp h2)
    obtain ⟨vo, hvo⟩ := Option.isSome_iff_exists.mp ((hasKV_true_iff _ _).mp h3)
    obtain ⟨vp, hvp⟩ := Option.isSome_iff_exists.mp ((hasKV_true_iff _ _).mp h4)
    refine ⟨_,
      buildCfg_ok ls (trimMatchesQuote va) (trimMatchesQuote ve)
        (trimMatchesQuote vo) (trimMatchesQuote vp)
        (by rw [parseState_arch, hva]; rfl)
        (by rw [parseState_endian, hve]; rfl)
        (by rw [parseState_os, hvo]; rfl)
        (by rw [parseState_pw, hvp]; rfl),
      ?_, ?_, ?_, ?_⟩ <;> simp [hva, hve, hvo, hvp]

/-- Witness for C2: a block missing only `target_endian` reports exactly
that key, and a complete block succeeds with the four fields populated. -/
theorem missing_mandatory_key_reports_missing_output_witness :
    (buildCfg ["target_arch=\"x86_64\"".toList, "target_os=\"linux\"".toList,
        "target_pointer_width=\"64\"".toList] =
      Except.error (Error.MissingOutput endianKey)) ∧
    (∃ c, buildCfg ["target_arch=\"x86_64\"".toList,
        "target_endian=\"little\"".toList, "target_os=\"linux\"".toList,
        "target_pointer_width=\"64\"".toList] = Except.ok c ∧
      some c.target.arch =
        (lastKVValue archKey ["target_arch=\"x86_64\"".toList,
          "target_endian=\"little\"".toList, "target_os=\"linux\"".toList,
          "target_pointer_width=\"64\"".toList]).map trimMatchesQuote ∧
      some c.target.endian =
        (lastKVValue endianKey ["target_arch=\"x86_64\"".toList,
          "target_endian=\"little\"".toList, "target_os=\"linux\"".toList,
          "target_pointer_width=\"64\"".toList]).map trimMatchesQuote ∧
      some c.target.os =
        (lastKVValue osKey ["target_arch=\"x86_64\"".toList,
          "target_endian=\"little\"".toList, "target_os=\"linux\"".toList,
          "target_pointer_width=\"64\"".toList]).map trimMatchesQuote ∧
      some c.target.pointer_width =
        (lastKVValue pwKey ["target_arch=\"x86_64\"".toList,
          "target_endian=\"little\"".toList, "target_os=\"linux\"".toList,
          "target_pointer_width=\"64\"".toList]).map trimMatchesQuote) :=
  ⟨(missing_mandatory_key_reports_missing_output _).2.1 (by decide) (by decide),
   (missing_mandatory_key_reports_missing_output _).2.2.2.2
     (by decide) (by decide) (by decide) (by decide)⟩

/-- Claim C3 (refuting evaluation): the argument vectors the code actually
produces.  The default builder yields `cargo rustc -- --lib --print cfg`
and a fully populated builder puts the Cargo-target selector after the
`--` separator, between the rustc args and `--print cfg` — not before
`--` as the claim (and the code's own doc comments, src/lib.rs lines
366-376 and 530-541) state. -/
theorem cargo_target_selector_after_separator :
    commandArgs CargoRustcPrintCfg.default CARGO =
      [CARGO, RUSTC, "--".toList, "--lib".toList,
       "--print".toList, "cfg".toList] ∧
    commandArgs
        { cargo_args := some ["-v".toList],
          cargo_target := CargoTarget.Binary "app".toList,
          cargo_toolchain := some "nightly".toList,
          rustc_args := some ["-C".toList, "x".toList],
          rustc_target := some "a-b-c-d".toList }
        CARGO =
      [CARGO, "+nightly".toList, RUSTC, "-v".toList,
       "--target".toList, "a-b-c-d".toList, "--".toList,
       "-C".toList, "x".toList, "--bin".toList, "app".toList,
       "--print".toList, "cfg".toList] :=
  ⟨rfl, rfl⟩

/-- Claim C4 counterexample: on the raw value `""x""` the quote stripping
of the parser yields `x`, not the `"x"` required by the claim, because
`trim_matches('"')` removes all boundary quotes, not exactly one pair. -/
theorem quote_strip_exactly_one_pair_cex :
    trimMatchesQuote "\"\"x\"\"".toList = "x".toList ∧
    "x".toList ≠ "\"x\"".toList := by
  refine ⟨rfl, ?_⟩
  decide

lemma dropWhile_quote_replicate_append (a : Nat) (t : Str) :
    (List.replicate a '"' ++ t).dropWhile (· == '"') = t.dropWhile (· == '"') := by
  induction a with
  | zero => rfl
  | succ n ih =>
    rw [List.replicate_succ, List.cons_append, dropWhile_quote_cons_quote, ih]

/-- Claim C4 as amended: quote stripping removes all leading and all
trailing double-quote characters from the value (not just one pair); a
value whose remaining content neither starts nor ends with a double quote
is returned exactly. -/
theorem quote_strip_removes_all_boundary_quotes (v : Str) (a b : Nat)
    (h1 : v.head? ≠ some '"') (h2 : v.getLast? ≠ some '"') :
    trimMatchesQuote (List.replicate a '"' ++ v ++ List.replicate b '"') = v := by
  unfold trimMatchesQuote
  rw [List.append_assoc, dropWhile_quote_replicate_append]
  cases v with
  | nil =>
    rw [List.nil_append]
    have hb : (List.replicate b '"').dropWhile (· == '"') = [] := by
      have h0 := dropWhile_quote_replicate_append b ([] : Str)
      rw [List.append_nil] at h0
      exact h0
    rw [hb]
    rfl
  | cons c cs =>
    have hc : ¬(c = '"') := by
      simp only [List.head?_cons, ne_eq, Option.some.injEq] at h1
      exact h1
    have hdrop : ((c :: cs) ++ List.replicate b '"').dropWhile (· == '"') =
        (c :: cs) ++ List.replicate b '"' := by
      apply dropWhile_quote_eq_self
      simp [hc]
    rw [hdrop]
    have hrev : ((c :: cs) ++ List.replicate b '"').reverse =
        List.replicate b '"' ++ (c :: cs).reverse := by
      rw [List.reverse_append, List.reverse_replicate]
    rw [hrev, dropWhile_quote_replicate_append,
      dropWhile_quote_eq_self _ (by rw [List.head?_reverse]; exact h2),
      List.reverse_reverse]

/-- Witness for the amended C4: two boundary quotes on each side of `x`
are all stripped. -/
theorem quote_strip_removes_all_boundary_quotes_witness :
    trimMatchesQuote
      (List.replicate 2 '"' ++ "x".toList ++ List.replicate 2 '"') = "x".toList :=
  quote_strip_removes_all_boundary_quotes "x".toList 2 2 (by decide) (by decide)

/-- Claim C5: the optional typed fields env, family and vendor are `none`
exactly when the corresponding line is missing or its quote-stripped
value is the empty string, and otherwise hold `some` of the quote-stripped
value (read from the last such line, cf. C9). -/
theorem optional_fields_follow_spec (ls : List Str) :
    (parseState ls).env = optionalFieldSpec envKey ls ∧
    (parseState ls).family = optionalFieldSpec familyKey ls ∧
    (parseState ls).vendor = optionalFieldSpec vendorKey ls := by
  refine ⟨?_, ?_, ?_⟩
  · rw [parseState_env]
    unfold optionalFieldSpec
    cases lastKVValue envKey ls <;> rfl
  · rw [parseState_family]
    unfold optionalFieldSpec
    cases lastKVValue familyKey ls <;> rfl
  · rw [parseState_vendor]
    unfold optionalFieldSpec
    cases lastKVValue vendorKey ls <;> rfl

/-- Claim C6: a non-zero exit status makes execute return the Command
error carrying the full captured output, whose displayed message contains
(as a suffix) the captured stderr text; no configuration is built from
the stdout. -/
theorem nonzero_exit_returns_command_error (out : Output)
    (h : out.status ≠ 0) :
    executeOutput out = Except.error (Error.Command out) ∧
    ∃ p, displayError (Error.Command out) = p ++ out.stderr := by
  constructor
  · unfold executeOutput
    rw [if_pos h]
  · exact ⟨debugOutput out ++ ": ".toList,
      by simp [displayError, List.append_assoc]⟩

/-- Witness for C6 at a concrete failed invocation with nonempty stdout. -/
theorem nonzero_exit_returns_command_error_witness :
    executeOutput
        { status := 101, stdout := "target_arch=\"x\"".toList,
          stderr := "error: build failed".toList } =
      Except.error (Error.Command
        { status := 101, stdout := "target_arch=\"x\"".toList,
          stderr := "error: build failed".toList }) ∧
    ∃ p, displayError (Error.Command
        { status := 101, stdout := "target_arch=\"x\"".toList,
          stderr := "error: build failed".toList }) =
      p ++ "error: build failed".toList :=
  nonzero_exit_returns_command_error _ (by decide)

/-- Claim C7: a successfully parsed output holds the quote-stripped values
of all `target_feature` lines, in input order; repeated lines accumulate
and never overwrite earlier ones. -/
theorem features_accumulate_in_order (ls : List Str) (c : Cfg)
    (h : buildCfg ls = Except.ok c) :
    c.target.features =
      ls.filterMap (fun l => (kvValueFor featureKey l).map trimMatchesQuote) := by
  rw [(buildCfg_ok_inv ls c h).2.1, parseState_features]

/-- Witness for C7 at a concrete block with two feature lines. -/
theorem features_accumulate_in_order_witness :
    ({ extras := [],
       target := { arch := "a".toList, endian := "b".toList, env := none,
                   family := none, features := ["fa".toList, "fb".toList],
                   os := "c".toList, pointer_width := "d".toList,
                   vendor := none } } : Cfg).target.features =
      (["target_arch=\"a\"".toList, "target_endian=\"b\"".toList,
        "target_os=\"c\"".toList, "target_pointer_width=\"d\"".toList,
        "target_feature=\"fa\"".toList, "target_feature=\"fb\"".toList]).filterMap
        (fun l => (kvValueFor featureKey l).map trimMatchesQuote) :=
  features_accumulate_in_order _ _ rfl

/-- Claim C8: every line that is not a recognized `target_*` key-value
pair — a line with no `=` or a `key=value` line with an unrecognized key —
is preserved verbatim, in input order, in the extras collection, which is
carried unchanged into the `Cfg`. -/
theorem unrecognized_lines_to_extras (ls : List Str) :
    (parseState ls).extras = ls.filter (fun l => !(isRecognized l)) ∧
    ∀ c, buildCfg ls = Except.ok c →
      c.extras = ls.filter (fun l => !(isRecognized l)) :=
  ⟨parseState_extras ls,
   fun c h => ((buildCfg_ok_inv ls c h).1).trans (parseState_extras ls)⟩

/-- Witness for C8 at a block with a bare name and an unrecognized
key-value line (quotes kept verbatim). -/
theorem unrecognized_lines_to_extras_witness :
    ({ extras := ["debug_assertions".toList, "foo=\"bar\"".toList],
       target := { arch := "a".toList, endian := "b".toList, env := none,
                   family := none, features := [],
                   os := "c".toList, pointer_width := "d".toList,
                   vendor := none } } : Cfg).extras =
      (["debug_assertions".toList, "foo=\"bar\"".toList,
        "target_arch=\"a\"".toList, "target_endian=\"b\"".toList,
        "target_os=\"c\"".toList,
        "target_pointer_width=\"d\"".toList]).filter
        (fun l => !(isRecognized l)) :=
  (unrecognized_lines_to_extras _).2 _ rfl

/-- Claim C9: each of the seven scalar recognized keys stores the value
derived from the last line carrying that key, silently overwriting
earlier occurrences (for the optional keys the derived value also
collapses an empty quote-stripped string to `none`). -/
theorem scalar_keys_last_occurrence_wins (ls : List Str) :
    (parseState ls).arch = (lastKVValue archKey ls).map trimMatchesQuote ∧
    (parseState ls).endian = (lastKVValue endianKey ls).map trimMatchesQuote ∧
    (parseState ls).os = (lastKVValue osKey ls).map trimMatchesQuote ∧
    (parseState ls).pointer_width = (lastKVValue pwKey ls).map trimMatchesQuote ∧
    (parseState ls).env =
      (lastKVValue envKey ls).bind (fun v => emptyToNone (trimMatchesQuote v)) ∧
    (parseState ls).family =
      (lastKVValue familyKey ls).bind (fun v => emptyToNone (trimMatchesQuote v)) ∧
    (parseState ls).vendor =
      (lastKVValue vendorKey ls).bind (fun v => emptyToNone (trimMatchesQuote v)) :=
  ⟨parseState_arch ls, parseState_endian ls, parseState_os ls, parseState_pw ls,
   parseState_env ls, parseState_family ls, parseState_vendor ls⟩

lemma buildCfg_missingOutput_inv (ls : List Str) (k : Str)
    (hk : buildCfg ls = Except.error (Error.MissingOutput k)) :
    hasKV k ls = false := by
  unfold buildCfg at hk
  cases harch : (parseState ls).arch with
  | none =>
    rw [harch] at hk
    simp at hk
    subst hk
    apply (hasKV_false_iff _ _).mpr
    have h0 := parseState_arch ls
    rw [harch] at h0
    exact Option.map_eq_none'.mp h0.symm
  | some a =>
    rw [harch] at hk
    cases hend : (parseState ls).endian with
    | none =>
      rw [hend] at hk
      simp at hk
      subst hk
      apply (hasKV_false_iff _ _).mpr
      have h0 := parseState_endian ls
      rw [hend] at h0
      exact Option.map_eq_none'.mp h0.symm
    | some e =>
      rw [hend] at hk
      cases hos : (parseState ls).os with
      | none =>
        rw [hos] at hk
        simp at hk
        subst hk
        apply (hasKV_false_iff _ _).mpr
        have h0 := parseState_os ls
        rw [hos] at h0
        exact Option.map_eq_none'.mp h0.symm
      | some o =>
        rw [hos] at hk
        cases hpw : (parseState ls).pointer_width with
        | none =>
          rw [hpw] at hk
          simp at hk
          subst hk
          apply (hasKV_false_iff _ _).mpr
          have h0 := parseState_pw ls
          rw [hpw] at h0
          exact Option.map_eq_none'.mp h0.symm
        | some p =>
          rw [hpw] at hk
          simp at hk

/-- Claim C10: when every one of the four mandatory keys has a `key=value`
line, construction succeeds, and whichever mandatory field's (last) value
quote-strips to the empty string is populated with the empty string —
present-but-empty never collapses a mandatory field to an error; moreover
a `MissingOutput` error for a key arises only when that key has no
`key=value` line at all. -/
theorem empty_mandatory_value_succeeds (ls : List Str) :
    (hasKV archKey ls = true → hasKV endianKey ls = true →
      hasKV osKey ls = true → hasKV pwKey ls = true →
      ∃ c, buildCfg ls = Except.ok c ∧
        ((lastKVValue archKey ls).map trimMatchesQuote = some [] →
          c.target.arch = []) ∧
        ((lastKVValue endianKey ls).map trimMatchesQuote = some [] →
          c.target.endian = []) ∧
        ((lastKVValue osKey ls).map trimMatchesQuote = some [] →
          c.target.os = []) ∧
        ((lastKVValue pwKey ls).map trimMatchesQuote = some [] →
          c.target.pointer_width = [])) ∧
    (∀ k, buildCfg ls = Except.error (Error.MissingOutput k) →
      hasKV k ls = false) := by
  constructor
  · intro ha he ho hp
    obtain ⟨va, hva⟩ := Option.isSome_iff_exists.mp ((hasKV_true_iff _ _).mp ha)
    obtain ⟨ve, hve⟩ := Option.isSome_iff_exists.mp ((hasKV_true_iff _ _).mp he)
    obtain ⟨vo, hvo⟩ := Option.isSome_iff_exists.mp ((hasKV_true_iff _ _).mp ho)
    obtain ⟨vp, hvp⟩ := Option.isSome_iff_exists.mp ((hasKV_true_iff _ _).mp hp)
    refine ⟨_,
      buildCfg_ok ls (trimMatchesQuote va) (trimMatchesQuote ve)
        (trimMatchesQuote vo) (trimMatchesQuote vp)
        (by rw [parseState_arch, hva]; rfl)
        (by rw [parseState_endian, hve]; rfl)
        (by rw [parseState_os, hvo]; rfl)
        (by rw [parseState_pw, hvp]; rfl),
      ?_, ?_, ?_, ?_⟩
    · intro hemp
      rw [hva] at hemp
      simp at hemp
      exact hemp
    · intro hemp
      rw [hve] at hemp
      simp at hemp
      exact hemp
    · intro hemp
      rw [hvo] at hemp
      simp at hemp
      exact hemp
    · intro hemp
      rw [hvp] at hemp
      simp at hemp
      exact hemp
  · exact fun k hk => buildCfg_missingOutput_inv ls k hk

/-- Witness for C10: a block whose `target_endian` line has the value `""`
still succeeds with endian equal to the empty string, and a block whose
`target_os` line is entirely absent has its `MissingOutput` matched by
`hasKV osKey _ = false`. -/
theorem empty_mandatory_value_succeeds_witness :
    (∃ c, buildCfg ["target_arch=\"x86_64\"".toList,
        "target_endian=\"\"".toList, "target_os=\"linux\"".toList,
        "target_pointer_width=\"64\"".toList] = Except.ok c ∧
      c.target.endian = []) ∧
    hasKV osKey ["target_arch=\"x86_64\"".toList,
      "target_endian=\"little\"".toList,
      "target_pointer_width=\"64\"".toList] = false := by
  constructor
  · obtain ⟨c, hc, _, hend, _, _⟩ :=
      (empty_mandatory_value_succeeds
        ["target_arch=\"x86_64\"".toList, "target_endian=\"\"".toList,
         "target_os=\"linux\"".toList,
         "target_pointer_width=\"64\"".toList]).1
        (by decide) (by decide) (by decide) (by decide)
    exact ⟨c, hc, hend (by decide)⟩
  · exact (empty_mandatory_value_succeeds
      ["target_arch=\"x86_64\"".toList, "target_endian=\"little\"".toList,
       "target_pointer_width=\"64\"".toList]).2 osKey rfl

end CargoRustcCfg
